import Mathlib

/-!
Shallow embedding of the Python-NTP-Server repository
(`ntp_client.py`, `ntp_server.py`, `server_config.py`).

Datagrams are modelled as `List ℕ` of byte values; clock readings
(`time.time()` results) are modelled as exact rationals; Python's
unbounded integers are modelled as `ℤ`.
-/

namespace Ntp

/-- Python `int()` applied to a real value: truncation toward zero. -/
def pyInt (q : ℚ) : ℤ := if 0 ≤ q then ⌊q⌋ else ⌈q⌉

/-- Python `t % 1` on a real value: the remainder has the sign of the
divisor `1`, so this is `t - ⌊t⌋`, always in `[0, 1)`. -/
def pyMod1 (q : ℚ) : ℚ := q - ⌊q⌋

/-- `NTP_UNIX_OFFSET` / `NTP_DELTA` from both source files: seconds between
the NTP epoch (1900) and the Unix epoch (1970). -/
def NTP_UNIX_OFFSET : ℕ := 2208988800

/-- `NTP_MAX_VALUE = 2**32` from `ntp_client.py`. -/
def NTP_MAX_VALUE : ℕ := 2 ^ 32

/-- The 15 logical fields of the 48-byte packet format `"!B B B b 11I"`:
three unsigned bytes, one signed byte, then eleven unsigned 32-bit
big-endian words.  Word values are `ℤ` because Python integers are
unbounded; `struct.pack` checks the ranges. -/
structure NtpFields where
  liVnMode : ℕ
  stratum : ℕ
  poll : ℕ
  precision : ℤ
  rootDelay : ℤ
  rootDispersion : ℤ
  refId : ℤ
  refTsInt : ℤ
  refTsFrac : ℤ
  originTsInt : ℤ
  originTsFrac : ℤ
  recvTsInt : ℤ
  recvTsFrac : ℤ
  txTsInt : ℤ
  txTsFrac : ℤ
deriving DecidableEq

/-- The eleven `I` (unsigned 32-bit) words of the format, in wire order. -/
def wordsOf (f : NtpFields) : List ℤ :=
  [f.rootDelay, f.rootDispersion, f.refId, f.refTsInt, f.refTsFrac,
   f.originTsInt, f.originTsFrac, f.recvTsInt, f.recvTsFrac,
   f.txTsInt, f.txTsFrac]

/-- Big-endian encoding of one in-range 32-bit word into four bytes. -/
def beBytes4 (w : ℤ) : List ℕ :=
  [w.toNat / 2 ^ 24 % 256, w.toNat / 2 ^ 16 % 256, w.toNat / 2 ^ 8 % 256,
   w.toNat % 256]

/-- Two's-complement encoding of a signed byte (`struct` format `b`). -/
def sbyte (z : ℤ) : ℕ := (z % 256).toNat

/-- `struct.pack("!B B B b 11I", ...)`: 48 bytes, or failure when a field
value is outside the range of its format code. -/
def structPack (f : NtpFields) : Option (List ℕ) :=
  if f.liVnMode < 256 ∧ f.stratum < 256 ∧ f.poll < 256 ∧
      -128 ≤ f.precision ∧ f.precision < 128 ∧
      ∀ w ∈ wordsOf f, 0 ≤ w ∧ w < 2 ^ 32 then
    some ([f.liVnMode, f.stratum, f.poll, sbyte f.precision] ++
      (wordsOf f).flatMap beBytes4)
  else
    none

/-- Byte `i` of a datagram. -/
def readByte (data : List ℕ) (i : ℕ) : ℕ := data.getD i 0

/-- Big-endian 32-bit word at byte offset `i` of a datagram. -/
def readWord (data : List ℕ) (i : ℕ) : ℕ :=
  readByte data i * 2 ^ 24 + readByte data (i + 1) * 2 ^ 16 +
    readByte data (i + 2) * 2 ^ 8 + readByte data (i + 3)

/-- Decoding of a signed byte (`struct` format `b`). -/
def sbyteDecode (b : ℕ) : ℤ := if b < 128 then (b : ℤ) else (b : ℤ) - 256

/-- The field set read from a 48-byte slice, following the format
`"!B B B b 11I"`: bytes 0–3 individually, then eleven big-endian words. -/
def unpackedFieldsOf (sliced : List ℕ) : NtpFields :=
  { liVnMode := readByte sliced 0
    stratum := readByte sliced 1
    poll := readByte sliced 2
    precision := sbyteDecode (readByte sliced 3)
    rootDelay := readWord sliced 4
    rootDispersion := readWord sliced 8
    refId := readWord sliced 12
    refTsInt := readWord sliced 16
    refTsFrac := readWord sliced 20
    originTsInt := readWord sliced 24
    originTsFrac := readWord sliced 28
    recvTsInt := readWord sliced 32
    recvTsFrac := readWord sliced 36
    txTsInt := readWord sliced 40
    txTsFrac := readWord sliced 44 }

/-- `struct.unpack(NTP_PACKET_FORMAT, data[0:48])`: both the client and the
server first slice the first 48 bytes; `struct.unpack` then fails unless
the slice is exactly 48 bytes long. -/
def structUnpack (data : List ℕ) : Option NtpFields :=
  if (data.take 48).length = 48 then some (unpackedFieldsOf (data.take 48))
  else none

/-- `ntp_client.unix_to_ntp_time_seconds`: `int(timestamp + NTP_UNIX_OFFSET)`. -/
def unix_to_ntp_time_seconds (timestamp : ℚ) : ℤ :=
  pyInt (timestamp + NTP_UNIX_OFFSET)

/-- `ntp_client.ntp_to_unix_time_seconds`: `int(timestamp - NTP_UNIX_OFFSET)`. -/
def ntp_to_unix_time_seconds (timestamp : ℚ) : ℤ :=
  pyInt (timestamp - NTP_UNIX_OFFSET)

/-- `ntp_server.system_to_ntp_time`: `int(timestamp + NTP_DELTA)`
(identical to the client's conversion). -/
def system_to_ntp_time (timestamp : ℚ) : ℤ :=
  pyInt (timestamp + NTP_UNIX_OFFSET)

/-- The client request's first byte: `(0 << 6) | (4 << 3) | 3`. -/
def client_li_vn_mode : ℕ := (0 <<< 6) ||| (4 <<< 3) ||| 3

/-- The server response's first byte: `(0 << 6) | (4 << 3) | 4`. -/
def server_li_vn_mode : ℕ := (0 <<< 6) ||| (4 <<< 3) ||| 4

/-- The fields of the client's request packet (`get_ntp_time`, the
`struct.pack` call): all zero except the first byte and the transmit
timestamp integer word, stamped from the client clock reading `t`. -/
def clientRequestFields (t : ℚ) : NtpFields :=
  { liVnMode := client_li_vn_mode
    stratum := 0
    poll := 0
    precision := 0
    rootDelay := 0
    rootDispersion := 0
    refId := 0
    refTsInt := 0
    refTsFrac := 0
    originTsInt := 0
    originTsFrac := 0
    recvTsInt := 0
    recvTsFrac := 0
    txTsInt := unix_to_ntp_time_seconds t
    txTsFrac := 0 }

/-- The request datagram the client builds at clock reading `t`. -/
def clientRequest (t : ℚ) : Option (List ℕ) :=
  structPack (clientRequestFields t)

/-- The result the client extracts from a response: the server time
(`int`-truncated Unix seconds), the local clock reading, and their
difference (printed as the deviation). -/
structure ClientResult where
  systemTime : ℤ
  localTime : ℚ
  offset : ℚ
deriving DecidableEq

/-- The client's handling of a received datagram (`get_ntp_time`,
the `len(response) >= NTP_PACKET_SIZE` branch): unpack the first
48 bytes, reconstruct the server's transmit time from `unpacked[13]`
and `unpacked[14]`, convert to Unix seconds, and subtract the local
clock reading `localTime`.  Returns `none` for responses shorter than
48 bytes (`"Received invalid response"`). -/
def get_ntp_time_process (response : List ℕ) (localTime : ℚ) : Option ClientResult :=
  if 48 ≤ response.length then
    match structUnpack response with
    | some u =>
        let ntpTime : ℚ := (u.txTsInt : ℚ) + (u.txTsFrac : ℚ) / NTP_MAX_VALUE
        let systemTime : ℤ := ntp_to_unix_time_seconds ntpTime
        some { systemTime := systemTime, localTime := localTime,
               offset := (systemTime : ℚ) - localTime }
    | none => none
  else
    none

/-- `ref_id = int.from_bytes(b"GPS\x00", byteorder="big")`. -/
def GPS_REF_ID : ℤ := 0x47505300

/-- The fraction word the server computes: `int((t % 1) * 2**32)`. -/
def fracField (t : ℚ) : ℤ := pyInt (pyMod1 t * 2 ^ 32)

/-- `ntp_server.create_ntp_response`: unpack the request's first 48 bytes,
then pack the response.  `t1` is the `time.time()` reading used for the
reference and receive timestamps, `t2` the second reading used for the
transmit timestamp.  The origin timestamp words are `unpacked[10]` and
`unpacked[11]` of the request — with the four header bytes at indices
0–3, those are the request's origin-fraction and receive-integer words. -/
def create_ntp_response (data : List ℕ) (t1 t2 : ℚ) : Option (List ℕ) :=
  (structUnpack data).bind fun unpacked =>
      structPack
        { liVnMode := server_li_vn_mode
          stratum := 2
          poll := 6
          precision := -20
          rootDelay := 0
          rootDispersion := 0
          refId := GPS_REF_ID
          refTsInt := system_to_ntp_time t1
          refTsFrac := fracField t1
          originTsInt := unpacked.originTsFrac
          originTsFrac := unpacked.recvTsInt
          recvTsInt := system_to_ntp_time t1
          recvTsFrac := fracField t1
          txTsInt := system_to_ntp_time t2
          txTsFrac := fracField t2 }

/-- One iteration of the server's receive loop (`run_ntp_server`): a
datagram of at least 48 bytes is answered by `create_ntp_response`
(with `none` when packing raises, caught by the loop's handler);
a shorter datagram is logged and produces no response. -/
def serverLoopStep (data : List ℕ) (t1 t2 : ℚ) : Option (List ℕ) :=
  if 48 ≤ data.length then create_ntp_response data t1 t2 else none

/-- The server's receive loop over a finite trace of inbound datagrams,
each paired with the two clock readings taken while handling it; the
result is the sequence of response datagrams sent.  The loop keeps no
other state between iterations. -/
def serverLoopRun : List (List ℕ × ℚ × ℚ) → List (List ℕ)
  | [] => []
  | (d, t1, t2) :: rest =>
      match serverLoopStep d t1 t2 with
      | some r => r :: serverLoopRun rest
      | none => serverLoopRun rest

/-- The test-time overrides of `server_config.py`: each is `None` or a
float value. -/
structure ServerConfig where
  sendFixedTime : Option ℚ
  sendDeltaPlusTime : Option ℚ
  sendDeltaMinusTime : Option ℚ
deriving DecidableEq

/-- Python truthiness of an optional float: `None` and `0.0` are falsy. -/
def truthy : Option ℚ → Bool
  | none => false
  | some x => decide (x ≠ 0)

/-- `server_config.get_current_unix_time_seconds`, with the ambient
system clock reading `sysTime` passed explicitly in place of
`time.time()`. -/
def get_current_unix_time_seconds (cfg : ServerConfig) (sysTime : ℚ) : ℚ :=
  if truthy cfg.sendFixedTime then cfg.sendFixedTime.getD 0
  else if truthy cfg.sendDeltaPlusTime then sysTime + cfg.sendDeltaPlusTime.getD 0
  else if truthy cfg.sendDeltaMinusTime then sysTime - cfg.sendDeltaMinusTime.getD 0
  else sysTime

/-! ### Helper lemmas -/

/-- On a nonnegative value, Python `int()` truncation is the floor. -/
theorem pyInt_of_nonneg {q : ℚ} (h : 0 ≤ q) : pyInt q = ⌊q⌋ := if_pos h

/-- Python `int()` is the identity on integer values. -/
theorem pyInt_intCast (z : ℤ) : pyInt (z : ℚ) = z := by
  unfold pyInt
  split
  · exact Int.floor_intCast z
  · exact Int.ceil_intCast z

theorem pyMod1_nonneg (q : ℚ) : 0 ≤ pyMod1 q := by
  have := Int.floor_le q
  unfold pyMod1
  linarith

theorem pyMod1_lt_one (q : ℚ) : pyMod1 q < 1 := by
  have := Int.lt_floor_add_one q
  unfold pyMod1
  linarith

theorem fracField_nonneg (t : ℚ) : 0 ≤ fracField t := by
  unfold fracField
  rw [pyInt_of_nonneg (by nlinarith [pyMod1_nonneg t])]
  exact Int.floor_nonneg.mpr (by nlinarith [pyMod1_nonneg t])

theorem fracField_lt (t : ℚ) : fracField t < 2 ^ 32 := by
  unfold fracField
  rw [pyInt_of_nonneg (by nlinarith [pyMod1_nonneg t])]
  refine Int.floor_lt.mpr ?_
  push_cast
  nlinarith [pyMod1_lt_one t]

theorem system_to_ntp_time_nonneg {t : ℚ} (h : 0 ≤ t) :
    0 ≤ system_to_ntp_time t := by
  unfold system_to_ntp_time
  rw [pyInt_of_nonneg (by positivity)]
  exact Int.floor_nonneg.mpr (by positivity)

theorem system_to_ntp_time_lt {t : ℚ} (h0 : 0 ≤ t)
    (h1 : t + (NTP_UNIX_OFFSET : ℚ) < 2 ^ 32) :
    system_to_ntp_time t < 2 ^ 32 := by
  unfold system_to_ntp_time
  rw [pyInt_of_nonneg (by positivity)]
  refine Int.floor_lt.mpr ?_
  push_cast
  exact h1

/-- `struct.pack` of the 48-byte format always yields exactly 48 bytes
when it succeeds. -/
theorem structPack_length {f : NtpFields} {d : List ℕ}
    (h : structPack f = some d) : d.length = 48 := by
  unfold structPack at h
  split at h
  · cases h
    simp [wordsOf, beBytes4]
  · cases h

/-- The first byte of a packed datagram is the `liVnMode` field. -/
theorem structPack_head {f : NtpFields} {d : List ℕ}
    (h : structPack f = some d) : readByte d 0 = f.liVnMode := by
  unfold structPack at h
  split at h
  · cases h
    rfl
  · cases h

theorem readByte_lt {data : List ℕ} (h : ∀ b ∈ data, b < 256) (i : ℕ) :
    readByte data i < 256 := by
  unfold readByte
  rw [List.getD_eq_getElem?_getD]
  cases hx : data[i]? with
  | none => simp
  | some a =>
      obtain ⟨hn, rfl⟩ := List.getElem?_eq_some.mp hx
      simpa using h _ (List.getElem_mem hn)

theorem readWord_lt {data : List ℕ} (h : ∀ b ∈ data, b < 256) (i : ℕ) :
    readWord data i < 2 ^ 32 := by
  have h0 := readByte_lt h i
  have h1 := readByte_lt h (i + 1)
  have h2 := readByte_lt h (i + 2)
  have h3 := readByte_lt h (i + 3)
  unfold readWord
  omega

theorem readByte_take {data : List ℕ} {i : ℕ} (h : i < 48) :
    readByte (data.take 48) i = readByte data i := by
  unfold readByte
  rw [List.getD_eq_getElem?_getD, List.getD_eq_getElem?_getD,
    List.getElem?_take_of_lt h]

theorem readWord_take {data : List ℕ} {i : ℕ} (h : i + 3 < 48) :
    readWord (data.take 48) i = readWord data i := by
  unfold readWord
  rw [readByte_take (by omega), readByte_take (by omega),
    readByte_take (by omega), readByte_take (by omega)]

theorem structUnpack_of_le {data : List ℕ} (h : 48 ≤ data.length) :
    structUnpack data = some (unpackedFieldsOf (data.take 48)) := by
  unfold structUnpack
  rw [if_pos]
  rw [List.length_take]
  omega

theorem structUnpack_of_short {data : List ℕ} (h : data.length < 48) :
    structUnpack data = none := by
  unfold structUnpack
  rw [if_neg]
  rw [List.length_take]
  omega

theorem structUnpack_congr {d1 d2 : List ℕ} (h : d1.take 48 = d2.take 48) :
    structUnpack d1 = structUnpack d2 := by
  unfold structUnpack
  rw [h]

/-- The client's `struct.pack` call succeeds and yields 48 bytes whenever
the clock reading is in the valid NTP era. -/
theorem clientRequest_ok {t : ℚ} (h0 : 0 ≤ t)
    (h1 : t + (NTP_UNIX_OFFSET : ℚ) < 2 ^ 32) :
    ∃ d, clientRequest t = some d ∧ d.length = 48 := by
  have hpack : ∃ d, structPack (clientRequestFields t) = some d := by
    unfold structPack
    rw [if_pos]
    · exact ⟨_, rfl⟩
    · refine ⟨by dsimp only [clientRequestFields]; decide,
        by dsimp only [clientRequestFields]; decide,
        by dsimp only [clientRequestFields]; decide,
        by dsimp only [clientRequestFields]; decide,
        by dsimp only [clientRequestFields]; decide, ?_⟩
      intro w hw
      have htx0 : 0 ≤ system_to_ntp_time t := system_to_ntp_time_nonneg h0
      have htx1 : system_to_ntp_time t < 2 ^ 32 := system_to_ntp_time_lt h0 h1
      have heq : unix_to_ntp_time_seconds t = system_to_ntp_time t := rfl
      simp only [wordsOf, clientRequestFields, List.mem_cons,
        List.not_mem_nil, or_false] at hw
      rcases hw with rfl | rfl | rfl | rfl | rfl | rfl | rfl | rfl | rfl | rfl | rfl <;>
        simp_all
  obtain ⟨d, hd⟩ := hpack
  exact ⟨d, hd, structPack_length hd⟩

/-- The server's response builder succeeds and yields 48 bytes on any
well-formed request of at least 48 bytes, for clock readings in the
valid NTP era. -/
theorem create_ntp_response_ok {data : List ℕ} {t1 t2 : ℚ}
    (hlen : 48 ≤ data.length) (hbytes : ∀ b ∈ data, b < 256)
    (h10 : 0 ≤ t1) (h11 : t1 + (NTP_UNIX_OFFSET : ℚ) < 2 ^ 32)
    (h20 : 0 ≤ t2) (h21 : t2 + (NTP_UNIX_OFFSET : ℚ) < 2 ^ 32) :
    ∃ r, create_ntp_response data t1 t2 = some r ∧ r.length = 48 := by
  have hbytes' : ∀ b ∈ data.take 48, b < 256 :=
    fun b hb => hbytes b (List.take_subset _ _ hb)
  unfold create_ntp_response
  rw [structUnpack_of_le hlen]
  simp only [Option.some_bind]
  have hpack : ∃ r, structPack
      { liVnMode := server_li_vn_mode
        stratum := 2
        poll := 6
        precision := -20
        rootDelay := 0
        rootDispersion := 0
        refId := GPS_REF_ID
        refTsInt := system_to_ntp_time t1
        refTsFrac := fracField t1
        originTsInt := (unpackedFieldsOf (data.take 48)).originTsFrac
        originTsFrac := (unpackedFieldsOf (data.take 48)).recvTsInt
        recvTsInt := system_to_ntp_time t1
        recvTsFrac := fracField t1
        txTsInt := system_to_ntp_time t2
        txTsFrac := fracField t2 } = some r := by
    unfold structPack
    rw [if_pos]
    · exact ⟨_, rfl⟩
    · refine ⟨by dsimp only; decide, by dsimp only; decide, by dsimp only; decide,
        by dsimp only; decide, by dsimp only; decide, ?_⟩
      intro w hw
      have ht10 := system_to_ntp_time_nonneg h10
      have ht11 := system_to_ntp_time_lt h10 h11
      have ht20 := system_to_ntp_time_nonneg h20
      have ht21 := system_to_ntp_time_lt h20 h21
      have hf10 := fracField_nonneg t1
      have hf11 := fracField_lt t1
      have hf20 := fracField_nonneg t2
      have hf21 := fracField_lt t2
      have ho : (unpackedFieldsOf (data.take 48)).originTsFrac =
          ((readWord (data.take 48) 28 : ℕ) : ℤ) := rfl
      have hr : (unpackedFieldsOf (data.take 48)).recvTsInt =
          ((readWord (data.take 48) 32 : ℕ) : ℤ) := rfl
      have ho1 := readWord_lt hbytes' 28
      have hr1 := readWord_lt hbytes' 32
      simp only [wordsOf, List.mem_cons, List.not_mem_nil, or_false] at hw
      rcases hw with rfl | rfl | rfl | rfl | rfl | rfl | rfl | rfl | rfl | rfl | rfl
      · norm_num
      · norm_num
      · norm_num [GPS_REF_ID]
      · exact ⟨ht10, ht11⟩
      · exact ⟨hf10, hf11⟩
      · exact ⟨by rw [ho]; exact Int.natCast_nonneg _, by rw [ho]; exact_mod_cast ho1⟩
      · exact ⟨by rw [hr]; exact Int.natCast_nonneg _, by rw [hr]; exact_mod_cast hr1⟩
      · exact ⟨ht10, ht11⟩
      · exact ⟨hf10, hf11⟩
      · exact ⟨ht20, ht21⟩
      · exact ⟨hf20, hf21⟩
  obtain ⟨r, hr⟩ := hpack
  exact ⟨r, hr, structPack_length hr⟩

/-- Evaluation of the client's response handling on a datagram of at
least 48 bytes: the server time is reconstructed from the transmit
words at byte offsets 40 and 44, and the reported deviation is the
plain difference from the local clock reading. -/
theorem get_ntp_time_process_eq {resp : List ℕ} (l : ℚ)
    (h : 48 ≤ resp.length) :
    get_ntp_time_process resp l =
      some
        { systemTime := ntp_to_unix_time_seconds
            ((((readWord (resp.take 48) 40 : ℕ) : ℤ) : ℚ) +
              (((readWord (resp.take 48) 44 : ℕ) : ℤ) : ℚ) / NTP_MAX_VALUE)
          localTime := l
          offset := ((ntp_to_unix_time_seconds
            ((((readWord (resp.take 48) 40 : ℕ) : ℤ) : ℚ) +
              (((readWord (resp.take 48) 44 : ℕ) : ℤ) : ℚ) / NTP_MAX_VALUE) : ℤ) : ℚ) - l } := by
  unfold get_ntp_time_process
  rw [if_pos h, structUnpack_of_le h]
  rfl

/-- The client's NTP-to-Unix conversion of a reconstructed transmit time
with integer word `a ≥ NTP_UNIX_OFFSET` and fraction word `f < 2^32`
truncates the fraction entirely. -/
theorem ntp_to_unix_of_words {a f : ℕ} (ha : NTP_UNIX_OFFSET ≤ a)
    (hf : f < 2 ^ 32) :
    ntp_to_unix_time_seconds (((a : ℤ) : ℚ) + ((f : ℤ) : ℚ) / NTP_MAX_VALUE) =
      (a : ℤ) - NTP_UNIX_OFFSET := by
  unfold ntp_to_unix_time_seconds
  have hdiv0 : (0 : ℚ) ≤ ((f : ℤ) : ℚ) / NTP_MAX_VALUE := by positivity
  have hdiv1 : ((f : ℤ) : ℚ) / NTP_MAX_VALUE < 1 := by
    rw [div_lt_one (by norm_num [NTP_MAX_VALUE])]
    have : (f : ℚ) < ((2 ^ 32 : ℕ) : ℚ) := by exact_mod_cast hf
    push_cast [NTP_MAX_VALUE]
    push_cast at this
    exact this
  have harg : ((a : ℤ) : ℚ) + ((f : ℤ) : ℚ) / NTP_MAX_VALUE - (NTP_UNIX_OFFSET : ℚ) =
      (((a : ℤ) - NTP_UNIX_OFFSET : ℤ) : ℚ) + ((f : ℤ) : ℚ) / NTP_MAX_VALUE := by
    push_cast
    ring
  rw [harg]
  have hoff : (0 : ℤ) ≤ (a : ℤ) - NTP_UNIX_OFFSET := by
    have : ((NTP_UNIX_OFFSET : ℕ) : ℤ) ≤ (a : ℤ) := by exact_mod_cast ha
    omega
  have hoffq : (0 : ℚ) ≤ (((a : ℤ) - NTP_UNIX_OFFSET : ℤ) : ℚ) := by
    exact_mod_cast hoff
  rw [pyInt_of_nonneg (by linarith)]
  rw [Int.floor_int_add, Int.floor_eq_zero_iff.mpr (Set.mem_Ico.mpr ⟨hdiv0, hdiv1⟩)]
  ring

theorem system_to_ntp_time_zero : system_to_ntp_time 0 = 2208988800 := by
  unfold system_to_ntp_time pyInt NTP_UNIX_OFFSET
  rw [if_pos (by positivity)]
  norm_num

theorem fracField_zero : fracField 0 = 0 := by
  unfold fracField pyMod1 pyInt
  norm_num

/-- Concrete evaluation of the server's response builder on the 48-byte
request whose byte at each offset is that offset, at clock reading 0. -/
theorem create_ntp_response_range48 :
    create_ntp_response (List.range 48) 0 0 =
      some [36, 2, 6, 236, 0, 0, 0, 0, 0, 0, 0, 0, 71, 80, 83, 0,
        131, 170, 126, 128, 0, 0, 0, 0, 28, 29, 30, 31, 32, 33, 34, 35,
        131, 170, 126, 128, 0, 0, 0, 0, 131, 170, 126, 128, 0, 0, 0, 0] := by
  unfold create_ntp_response
  rw [structUnpack_of_le (by decide)]
  simp only [Option.some_bind]
  rw [system_to_ntp_time_zero, fracField_zero]
  decide

/-- Concrete evaluation of the client's request builder at clock reading 0. -/
theorem clientRequest_zero :
    clientRequest 0 =
      some [35, 0, 0, 0, 0, 0, 0, 0, 0, 0, 0, 0, 0, 0, 0, 0,
        0, 0, 0, 0, 0, 0, 0, 0, 0, 0, 0, 0, 0, 0, 0, 0,
        0, 0, 0, 0, 0, 0, 0, 0, 131, 170, 126, 128, 0, 0, 0, 0] := by
  unfold clientRequest clientRequestFields
  rw [show unix_to_ntp_time_seconds 0 = 2208988800 from system_to_ntp_time_zero]
  decide

/-! ### Claim theorems -/

/-- Claim C5: every packet the program encodes is exactly 48 bytes —
`structPack` only ever yields 48-byte lists, the client's request and
the server's response (from any ≥48-byte request, for clock readings
in the valid era) are 48 bytes — and any received datagram shorter
than 48 bytes is rejected: the client returns no result and the server
loop builds no response. -/
theorem C5_fixed_size :
    (∀ (f : NtpFields) (d : List ℕ), structPack f = some d → d.length = 48) ∧
    (∀ t : ℚ, 0 ≤ t → t + (NTP_UNIX_OFFSET : ℚ) < 2 ^ 32 →
      ∃ d, clientRequest t = some d ∧ d.length = 48) ∧
    (∀ (data : List ℕ) (t1 t2 : ℚ), 48 ≤ data.length → (∀ b ∈ data, b < 256) →
      0 ≤ t1 → t1 + (NTP_UNIX_OFFSET : ℚ) < 2 ^ 32 →
      0 ≤ t2 → t2 + (NTP_UNIX_OFFSET : ℚ) < 2 ^ 32 →
      ∃ r, create_ntp_response data t1 t2 = some r ∧ r.length = 48) ∧
    (∀ (resp : List ℕ) (l : ℚ), resp.length < 48 →
      get_ntp_time_process resp l = none) ∧
    (∀ (data : List ℕ) (t1 t2 : ℚ), data.length < 48 →
      serverLoopStep data t1 t2 = none) := by
  refine ⟨fun f d h => structPack_length h,
    fun t h0 h1 => clientRequest_ok h0 h1,
    fun data t1 t2 hl hb h10 h11 h20 h21 =>
      create_ntp_response_ok hl hb h10 h11 h20 h21,
    fun resp l h => ?_, fun data t1 t2 h => ?_⟩
  · unfold get_ntp_time_process
    rw [if_neg (by omega)]
  · unfold serverLoopStep
    rw [if_neg (by omega)]

/-- Witness for C5 at concrete inputs. -/
theorem C5_fixed_size_witness :
    (∃ d, clientRequest 0 = some d ∧ d.length = 48) ∧
    (∃ r, create_ntp_response (List.range 48) 0 0 = some r ∧ r.length = 48) ∧
    get_ntp_time_process [1, 2, 3] 5 = none ∧
    serverLoopStep [9] 0 0 = none :=
  ⟨C5_fixed_size.2.1 0 (by norm_num) (by norm_num [NTP_UNIX_OFFSET]),
   C5_fixed_size.2.2.1 (List.range 48) 0 0 (by decide) (by decide)
     (by norm_num) (by norm_num [NTP_UNIX_OFFSET])
     (by norm_num) (by norm_num [NTP_UNIX_OFFSET]),
   C5_fixed_size.2.2.2.1 [1, 2, 3] 5 (by decide),
   C5_fixed_size.2.2.2.2 [9] 0 0 (by decide)⟩

/-- Claim C6: a datagram shorter than 48 bytes produces no response and
leaves the server loop unaffected — dropping it from the trace changes
nothing — and a subsequent valid request is still answered. -/
theorem C6_short_datagram (d : List ℕ) (t1 t2 : ℚ) (hshort : d.length < 48) :
    serverLoopStep d t1 t2 = none ∧
    (∀ rest, serverLoopRun ((d, t1, t2) :: rest) = serverLoopRun rest) ∧
    (∀ (d2 : List ℕ) (u1 u2 : ℚ), 48 ≤ d2.length → (∀ b ∈ d2, b < 256) →
      0 ≤ u1 → u1 + (NTP_UNIX_OFFSET : ℚ) < 2 ^ 32 →
      0 ≤ u2 → u2 + (NTP_UNIX_OFFSET : ℚ) < 2 ^ 32 →
      ∃ r, serverLoopRun [(d, t1, t2), (d2, u1, u2)] = [r] ∧
        serverLoopStep d2 u1 u2 = some r) := by
  have hnone : serverLoopStep d t1 t2 = none := by
    unfold serverLoopStep
    rw [if_neg (by omega)]
  refine ⟨hnone, fun rest => ?_, fun d2 u1 u2 hl hb h10 h11 h20 h21 => ?_⟩
  · simp [serverLoopRun, hnone]
  · obtain ⟨r, hr, _⟩ := create_ntp_response_ok hl hb h10 h11 h20 h21
    have hstep : serverLoopStep d2 u1 u2 = some r := by
      unfold serverLoopStep
      rw [if_pos hl]
      exact hr
    exact ⟨r, by simp [serverLoopRun, hnone, hstep], hstep⟩

/-- Witness for C6: a 1-byte datagram is ignored and the following
48-byte request is still answered. -/
theorem C6_short_datagram_witness :
    serverLoopStep [0] 0 0 = none ∧
    serverLoopRun [([0], 0, 0)] = [] ∧
    ∃ r, serverLoopRun [([0], 0, 0), (List.range 48, 0, 0)] = [r] ∧
      serverLoopStep (List.range 48) 0 0 = some r := by
  obtain ⟨h1, h2, h3⟩ := C6_short_datagram [0] 0 0 (by decide)
  exact ⟨h1, by rw [h2 []]; rfl,
    h3 (List.range 48) 0 0 (by decide) (by decide)
      (by norm_num) (by norm_num [NTP_UNIX_OFFSET])
      (by norm_num) (by norm_num [NTP_UNIX_OFFSET])⟩

/-- Claim C7: bytes beyond offset 48 never influence the result and never
cause a failure — two datagrams agreeing on their first 48 bytes decode
identically, the server builds identical responses from them (same clock
readings), and the client extracts identical results. -/
theorem C7_trailing_bytes (d1 d2 : List ℕ) (hlen : 48 ≤ d1.length)
    (htake : d1.take 48 = d2.take 48) (t1 t2 l : ℚ) :
    (structUnpack d1).isSome ∧
    structUnpack d1 = structUnpack d2 ∧
    create_ntp_response d1 t1 t2 = create_ntp_response d2 t1 t2 ∧
    get_ntp_time_process d1 l = get_ntp_time_process d2 l := by
  have hlen2 : 48 ≤ d2.length := by
    have h1 : (d1.take 48).length = 48 := by
      rw [List.length_take]
      omega
    rw [htake, List.length_take] at h1
    omega
  have hu : structUnpack d1 = structUnpack d2 := structUnpack_congr htake
  refine ⟨?_, hu, ?_, ?_⟩
  · rw [structUnpack_of_le hlen]
    rfl
  · unfold create_ntp_response
    rw [hu]
  · unfold get_ntp_time_process
    rw [if_pos hlen, if_pos hlen2, hu]

/-- Witness for C7: 12 trailing bytes do not change the response or the
client's result. -/
theorem C7_trailing_bytes_witness :
    (structUnpack (List.range 48)).isSome ∧
    structUnpack (List.range 48) = structUnpack (List.range 60) ∧
    create_ntp_response (List.range 48) 0 0 = create_ntp_response (List.range 60) 0 0 ∧
    get_ntp_time_process (List.range 48) 0 = get_ntp_time_process (List.range 60) 0 :=
  C7_trailing_bytes (List.range 48) (List.range 60) (by decide) (by decide) 0 0 0

/-- Claim C8: every response the server builds starts with a byte encoding
LI=0, VN=4, Mode=4, and every request the client builds starts with a
byte encoding LI=0, VN=4, Mode=3, over all inputs and clock readings. -/
theorem C8_li_vn_mode :
    (∀ (data : List ℕ) (t1 t2 : ℚ) (r : List ℕ),
      create_ntp_response data t1 t2 = some r →
      readByte r 0 / 64 = 0 ∧ readByte r 0 / 8 % 8 = 4 ∧ readByte r 0 % 8 = 4) ∧
    (∀ (t : ℚ) (d : List ℕ), clientRequest t = some d →
      readByte d 0 / 64 = 0 ∧ readByte d 0 / 8 % 8 = 4 ∧ readByte d 0 % 8 = 3) := by
  constructor
  · intro data t1 t2 r h
    unfold create_ntp_response at h
    cases hu : structUnpack data with
    | none =>
        rw [hu] at h
        cases h
    | some u =>
        rw [hu] at h
        simp only [Option.some_bind] at h
        rw [structPack_head h]
        dsimp only
        decide
  · intro t d h
    unfold clientRequest at h
    rw [structPack_head h]
    dsimp only [clientRequestFields]
    decide

/-- Witness for C8 on a concrete response and request. -/
theorem C8_li_vn_mode_witness :
    (readByte [36, 2, 6, 236, 0, 0, 0, 0, 0, 0, 0, 0, 71, 80, 83, 0,
        131, 170, 126, 128, 0, 0, 0, 0, 28, 29, 30, 31, 32, 33, 34, 35,
        131, 170, 126, 128, 0, 0, 0, 0, 131, 170, 126, 128, 0, 0, 0, 0] 0 / 64 = 0 ∧
      readByte [36, 2, 6, 236, 0, 0, 0, 0, 0, 0, 0, 0, 71, 80, 83, 0,
        131, 170, 126, 128, 0, 0, 0, 0, 28, 29, 30, 31, 32, 33, 34, 35,
        131, 170, 126, 128, 0, 0, 0, 0, 131, 170, 126, 128, 0, 0, 0, 0] 0 / 8 % 8 = 4 ∧
      readByte [36, 2, 6, 236, 0, 0, 0, 0, 0, 0, 0, 0, 71, 80, 83, 0,
        131, 170, 126, 128, 0, 0, 0, 0, 28, 29, 30, 31, 32, 33, 34, 35,
        131, 170, 126, 128, 0, 0, 0, 0, 131, 170, 126, 128, 0, 0, 0, 0] 0 % 8 = 4) ∧
    (readByte [35, 0, 0, 0, 0, 0, 0, 0, 0, 0, 0, 0, 0, 0, 0, 0,
        0, 0, 0, 0, 0, 0, 0, 0, 0, 0, 0, 0, 0, 0, 0, 0,
        0, 0, 0, 0, 0, 0, 0, 0, 131, 170, 126, 128, 0, 0, 0, 0] 0 / 64 = 0 ∧
      readByte [35, 0, 0, 0, 0, 0, 0, 0, 0, 0, 0, 0, 0, 0, 0, 0,
        0, 0, 0, 0, 0, 0, 0, 0, 0, 0, 0, 0, 0, 0, 0, 0,
        0, 0, 0, 0, 0, 0, 0, 0, 131, 170, 126, 128, 0, 0, 0, 0] 0 / 8 % 8 = 4 ∧
      readByte [35, 0, 0, 0, 0, 0, 0, 0, 0, 0, 0, 0, 0, 0, 0, 0,
        0, 0, 0, 0, 0, 0, 0, 0, 0, 0, 0, 0, 0, 0, 0, 0,
        0, 0, 0, 0, 0, 0, 0, 0, 131, 170, 126, 128, 0, 0, 0, 0] 0 % 8 = 3) :=
  ⟨C8_li_vn_mode.1 (List.range 48) 0 0 _ create_ntp_response_range48,
   C8_li_vn_mode.2 0 _ clientRequest_zero⟩

/-- Claim C9: for any nonnegative clock reading `t`, the fraction word
`int((t % 1) * 2**32)` lies in `[0, 2^32)`, so the 32-bit range check of
the pack operation cannot fail on it. -/
theorem C9_fraction_range (t : ℚ) (_h : 0 ≤ t) :
    0 ≤ fracField t ∧ fracField t < 2 ^ 32 :=
  ⟨fracField_nonneg t, fracField_lt t⟩

/-- Witness for C9 at `t = 3/2`. -/
theorem C9_fraction_range_witness :
    0 ≤ fracField (3 / 2) ∧ fracField (3 / 2) < 2 ^ 32 :=
  C9_fraction_range (3 / 2) (by norm_num)

/-- Claim C10: the test time source picks its override by truthiness with
fixed precedence — a non-zero fixed time wins, then system time plus the
plus-delta, then system time minus the minus-delta, else plain system
time; an override equal to `0` is treated as unset. -/
theorem C10_time_source (cfg : ServerConfig) (sys : ℚ) :
    (∀ x : ℚ, cfg.sendFixedTime = some x → x ≠ 0 →
      get_current_unix_time_seconds cfg sys = x) ∧
    (truthy cfg.sendFixedTime = false →
      ∀ dp : ℚ, cfg.sendDeltaPlusTime = some dp → dp ≠ 0 →
        get_current_unix_time_seconds cfg sys = sys + dp) ∧
    (truthy cfg.sendFixedTime = false → truthy cfg.sendDeltaPlusTime = false →
      ∀ dm : ℚ, cfg.sendDeltaMinusTime = some dm → dm ≠ 0 →
        get_current_unix_time_seconds cfg sys = sys - dm) ∧
    (truthy cfg.sendFixedTime = false → truthy cfg.sendDeltaPlusTime = false →
      truthy cfg.sendDeltaMinusTime = false →
      get_current_unix_time_seconds cfg sys = sys) ∧
    (cfg.sendFixedTime = some 0 → truthy cfg.sendDeltaPlusTime = false →
      truthy cfg.sendDeltaMinusTime = false →
      get_current_unix_time_seconds cfg sys = sys) := by
  refine ⟨?_, ?_, ?_, ?_, ?_⟩
  · intro x hx hne
    unfold get_current_unix_time_seconds
    rw [hx]
    simp [truthy, hne]
  · intro hf dp hdp hne
    unfold get_current_unix_time_seconds
    rw [hf]
    rw [hdp]
    simp [truthy, hne]
  · intro hf hp dm hdm hne
    unfold get_current_unix_time_seconds
    rw [hf, hp, hdm]
    simp [truthy, hne]
  · intro hf hp hm
    unfold get_current_unix_time_seconds
    rw [hf, hp, hm]
    simp
  · intro h0 hp hm
    have hf : truthy cfg.sendFixedTime = false := by
      rw [h0]
      simp [truthy]
    unfold get_current_unix_time_seconds
    rw [hf, hp, hm]
    simp

/-- Witness for C10: a non-zero fixed time wins; a fixed time of exactly
`0` is treated as unset and plain system time is returned. -/
theorem C10_time_source_witness :
    get_current_unix_time_seconds ⟨some 5, some 7, some 9⟩ 100 = 5 ∧
    get_current_unix_time_seconds ⟨some 0, none, none⟩ 100 = 100 :=
  ⟨(C10_time_source ⟨some 5, some 7, some 9⟩ 100).1 5 rfl (by norm_num),
   (C10_time_source ⟨some 0, none, none⟩ 100).2.2.2.2 rfl rfl rfl⟩

/-- Concrete evaluation of the client's handling of a response carrying
server transmit time 1002.5 Unix seconds (NTP words 2208989802 and
2^31), received at local time 1001: the reported deviation is 1. -/
theorem get_ntp_time_process_vector :
    get_ntp_time_process
        (List.replicate 40 0 ++ beBytes4 2208989802 ++ beBytes4 (2 ^ 31)) 1001 =
      some { systemTime := 1002, localTime := 1001, offset := 1 } := by
  rw [get_ntp_time_process_eq 1001 (by decide)]
  have h40 : readWord ((List.replicate 40 0 ++ beBytes4 2208989802 ++
      beBytes4 (2 ^ 31)).take 48) 40 = 2208989802 := by decide
  have h44 : readWord ((List.replicate 40 0 ++ beBytes4 2208989802 ++
      beBytes4 (2 ^ 31)).take 48) 44 = 2147483648 := by decide
  rw [h40, h44, ntp_to_unix_of_words (by decide) (by decide)]
  norm_num [NTP_UNIX_OFFSET, ClientResult.mk.injEq]

/-- Concrete evaluation of the client's handling of a response whose raw
transmit word is `a = 5` at a local time corresponding to the raw value
`b = 2^32 - 5` (ten seconds apart across a 32-bit rollover): the
computed delta is `10 - 2^32`, not `±10`. -/
theorem get_ntp_time_process_wrap :
    get_ntp_time_process (List.replicate 40 0 ++ [0, 0, 0, 5, 0, 0, 0, 0])
        ((2 ^ 32 - 5 : ℚ) - (NTP_UNIX_OFFSET : ℚ)) =
      some { systemTime := 5 - 2208988800,
             localTime := (2 ^ 32 - 5 : ℚ) - (NTP_UNIX_OFFSET : ℚ),
             offset := 10 - 2 ^ 32 } := by
  rw [get_ntp_time_process_eq _ (by decide)]
  have h40 : readWord ((List.replicate 40 0 ++ [0, 0, 0, 5, 0, 0, 0, 0]).take 48) 40 = 5 := by
    decide
  have h44 : readWord ((List.replicate 40 0 ++ [0, 0, 0, 5, 0, 0, 0, 0]).take 48) 44 = 0 := by
    decide
  rw [h40, h44]
  have harg : (((5 : ℕ) : ℤ) : ℚ) + (((0 : ℕ) : ℤ) : ℚ) / NTP_MAX_VALUE -
      (NTP_UNIX_OFFSET : ℚ) = (((5 - 2208988800 : ℤ)) : ℚ) := by
    norm_num [NTP_MAX_VALUE, NTP_UNIX_OFFSET]
  unfold ntp_to_unix_time_seconds
  rw [harg, pyInt_intCast]
  norm_num [NTP_UNIX_OFFSET, ClientResult.mk.injEq]

/-- Claim C1 counterexample: at the known vector (server transmit
T2 = 1002.5, client receive T3 = 1001) the client's computed deviation
is 1, not the 1.75 the four-timestamp offset formula would give. -/
theorem C1_known_vector_counterexample :
    get_ntp_time_process
        (List.replicate 40 0 ++ beBytes4 2208989802 ++ beBytes4 (2 ^ 31)) 1001 =
      some { systemTime := 1002, localTime := 1001, offset := 1 } ∧
    (1 : ℚ) ≠ 7 / 4 :=
  ⟨get_ntp_time_process_vector, by norm_num⟩

/-- Claim C1 (amended): the client computes no round-trip delay and no
four-timestamp average; its result is the server's transmit time
truncated to whole Unix seconds, and the deviation is that truncated
time minus the local clock reading. -/
theorem C1_client_offset_amended (resp : List ℕ) (l : ℚ) (r : ClientResult)
    (hlen : 48 ≤ resp.length)
    (ha : NTP_UNIX_OFFSET ≤ readWord resp 40)
    (hf : readWord resp 44 < 2 ^ 32)
    (hr : get_ntp_time_process resp l = some r) :
    r.systemTime = (readWord resp 40 : ℤ) - NTP_UNIX_OFFSET ∧
    r.offset = (readWord resp 40 : ℚ) - NTP_UNIX_OFFSET - l := by
  rw [get_ntp_time_process_eq l hlen, @readWord_take resp 40 (by omega),
      @readWord_take resp 44 (by omega)] at hr
  injection hr with hr
  subst hr
  have h1 := ntp_to_unix_of_words ha hf
  constructor
  · exact h1
  · dsimp only
    rw [h1]
    push_cast
    ring

/-- Witness for the amended C1 at the known-vector response. -/
theorem C1_client_offset_amended_witness :
    ({ systemTime := 1002, localTime := 1001, offset := 1 } : ClientResult).systemTime =
      (readWord (List.replicate 40 0 ++ beBytes4 2208989802 ++ beBytes4 (2 ^ 31)) 40 : ℤ) -
        NTP_UNIX_OFFSET ∧
    ({ systemTime := 1002, localTime := 1001, offset := 1 } : ClientResult).offset =
      (readWord (List.replicate 40 0 ++ beBytes4 2208989802 ++ beBytes4 (2 ^ 31)) 40 : ℚ) -
        NTP_UNIX_OFFSET - 1001 :=
  C1_client_offset_amended _ 1001 _ (by decide) (by decide) (by decide)
    get_ntp_time_process_vector

/-- Claim C2 counterexample: for raw values `a = 5` and `b = 2^32 - 5`,
ten seconds apart across a rollover, the client's computed delta is
`10 - 2^32`, not `±10` — no modular mapping is applied anywhere. -/
theorem C2_wraparound_counterexample :
    get_ntp_time_process (List.replicate 40 0 ++ [0, 0, 0, 5, 0, 0, 0, 0])
        ((2 ^ 32 - 5 : ℚ) - (NTP_UNIX_OFFSET : ℚ)) =
      some { systemTime := 5 - 2208988800,
             localTime := (2 ^ 32 - 5 : ℚ) - (NTP_UNIX_OFFSET : ℚ),
             offset := 10 - 2 ^ 32 } ∧
    ¬((10 - 2 ^ 32 : ℚ) = 10 ∨ (10 - 2 ^ 32 : ℚ) = -10) :=
  ⟨get_ntp_time_process_wrap, by norm_num⟩

/-- Claim C2 (amended): the program subtracts the server-derived time and
the local time directly, with no reduction modulo 2^32 and no mapping
into a signed range: whenever the fraction word is zero, the client's
deviation is the plain difference of the raw transmit word (shifted by
the 1900/1970 offset) and the local time, however large. -/
theorem C2_plain_subtraction_amended (resp : List ℕ) (l : ℚ) (r : ClientResult)
    (hlen : 48 ≤ resp.length) (hf : readWord resp 44 = 0)
    (hr : get_ntp_time_process resp l = some r) :
    r.offset = (readWord resp 40 : ℚ) - NTP_UNIX_OFFSET - l := by
  rw [get_ntp_time_process_eq l hlen, @readWord_take resp 40 (by omega),
      @readWord_take resp 44 (by omega), hf] at hr
  injection hr with hr
  subst hr
  dsimp only
  have harg : (((readWord resp 40 : ℕ) : ℤ) : ℚ) + (((0 : ℕ) : ℤ) : ℚ) / NTP_MAX_VALUE -
      (NTP_UNIX_OFFSET : ℚ) = (((readWord resp 40 : ℤ) - NTP_UNIX_OFFSET : ℤ) : ℚ) := by
    push_cast
    ring
  unfold ntp_to_unix_time_seconds
  rw [harg, pyInt_intCast]
  push_cast
  ring

/-- Witness for the amended C2 at the rollover-straddling input. -/
theorem C2_plain_subtraction_amended_witness :
    ({ systemTime := 5 - 2208988800,
       localTime := (2 ^ 32 - 5 : ℚ) - (NTP_UNIX_OFFSET : ℚ),
       offset := 10 - 2 ^ 32 } : ClientResult).offset =
      (readWord (List.replicate 40 0 ++ [0, 0, 0, 5, 0, 0, 0, 0]) 40 : ℚ) -
        NTP_UNIX_OFFSET - ((2 ^ 32 - 5 : ℚ) - (NTP_UNIX_OFFSET : ℚ)) :=
  C2_plain_subtraction_amended _ _ _ (by decide) (by decide)
    get_ntp_time_process_wrap

/-- Claim C3 counterexample: at `t = 1/2` the round trip through the
program's conversions returns 0, an error of one half second, far above
the claimed `2^-31` bound. -/
theorem C3_roundtrip_counterexample :
    ntp_to_unix_time_seconds ((unix_to_ntp_time_seconds (1 / 2) : ℤ) : ℚ) = 0 ∧
    ¬(|((ntp_to_unix_time_seconds ((unix_to_ntp_time_seconds (1 / 2) : ℤ) : ℚ) : ℤ) : ℚ) -
        1 / 2| < 1 / 2 ^ 31) := by
  have h5 : unix_to_ntp_time_seconds (1 / 2) = 2208988800 := by
    unfold unix_to_ntp_time_seconds pyInt NTP_UNIX_OFFSET
    rw [if_pos (by positivity)]
    norm_num
  have h6 : ntp_to_unix_time_seconds ((2208988800 : ℤ) : ℚ) = 0 := by
    unfold ntp_to_unix_time_seconds pyInt NTP_UNIX_OFFSET
    rw [if_pos (by norm_num)]
    norm_num
  rw [h5, h6]
  refine ⟨rfl, ?_⟩
  have habs : |((0 : ℤ) : ℚ) - 1 / 2| = 1 / 2 := by
    rw [abs_sub_comm]
    simp [abs_of_nonneg]
  rw [habs]
  norm_num

/-- Claim C3 (amended): both conversions keep only whole seconds, so for
Unix times `t ≥ 0` in the valid era the round trip returns `⌊t⌋`: the
error is below 1 second, not below `2^-31`. -/
theorem C3_roundtrip_amended (t : ℚ) (h0 : 0 ≤ t)
    (_h1 : t + (NTP_UNIX_OFFSET : ℚ) < 2 ^ 32) :
    ntp_to_unix_time_seconds ((unix_to_ntp_time_seconds t : ℤ) : ℚ) = ⌊t⌋ ∧
    |((ntp_to_unix_time_seconds ((unix_to_ntp_time_seconds t : ℤ) : ℚ) : ℤ) : ℚ) - t| < 1 := by
  have hmain : ntp_to_unix_time_seconds ((unix_to_ntp_time_seconds t : ℤ) : ℚ) = ⌊t⌋ := by
    have hu : unix_to_ntp_time_seconds t = ⌊t⌋ + ((NTP_UNIX_OFFSET : ℕ) : ℤ) := by
      unfold unix_to_ntp_time_seconds
      rw [pyInt_of_nonneg (by positivity), Int.floor_add_nat]
    unfold ntp_to_unix_time_seconds
    rw [hu]
    have harg : (((⌊t⌋ + ((NTP_UNIX_OFFSET : ℕ) : ℤ) : ℤ)) : ℚ) - (NTP_UNIX_OFFSET : ℚ) =
        ((⌊t⌋ : ℤ) : ℚ) := by
      push_cast
      ring
    rw [harg, pyInt_intCast]
  refine ⟨hmain, ?_⟩
  rw [hmain, abs_lt]
  have hle := Int.floor_le t
  have hlt := Int.lt_floor_add_one t
  constructor
  · linarith
  · linarith

/-- Witness for the amended C3 at `t = 1/2`. -/
theorem C3_roundtrip_amended_witness :
    ntp_to_unix_time_seconds ((unix_to_ntp_time_seconds (1 / 2) : ℤ) : ℚ) = ⌊(1 / 2 : ℚ)⌋ ∧
    |((ntp_to_unix_time_seconds ((unix_to_ntp_time_seconds (1 / 2) : ℤ) : ℚ) : ℤ) : ℚ) -
      1 / 2| < 1 :=
  C3_roundtrip_amended (1 / 2) (by norm_num) (by norm_num [NTP_UNIX_OFFSET])

/-- Claim C4: the server fills the response's origin timestamp field
(bytes 24-31) from the request's bytes 28-35 (`unpacked[10]` and
`unpacked[11]`, the origin-fraction and receive-integer words), not from
the request's transmit timestamp field at bytes 40-47: evaluated on the
request whose byte at each offset is that offset. -/
theorem C4_origin_copy_bug :
    ∃ r, create_ntp_response (List.range 48) 0 0 = some r ∧
      (r.drop 24).take 8 = ((List.range 48).drop 28).take 8 ∧
      (r.drop 24).take 8 ≠ ((List.range 48).drop 40).take 8 :=
  ⟨_, create_ntp_response_range48, by decide, by decide⟩

end Ntp
